import Mathlib

/-!
# Verification of the polar-plant dashboard core

Shallow embedding of the logic of `src/main.py`: the Unicode-safe filename
resolver, the two dataset loaders, the fixed school-to-EC mapping, and the
aggregation pipeline feeding the charts (per-school environment averages,
per-EC growth grouping, best-EC selection, CSV round-trip of the combined
environment table).

Modelling conventions:
* A directory is a list of files in iteration order; a file carries its name
  and its already-parsed tabular content (parsing by the pandas library is
  outside the program).
* `unicodedata.normalize("NFC", _)` is an external library function; it is
  embedded as an abstract parameter `nfc : String → String`, exactly as the
  code treats it (an opaque-to-the-program string transformer).
* Numeric cell values are rationals (the float values appearing in the data
  and the mapping are exactly representable).
* `st.error` calls are modelled by an error-message list returned alongside
  the data.
-/

namespace PolarPlant

/-- The fixed school → target-EC table `SCHOOL_EC` of `src/main.py`
(a Python dict in insertion order). -/
def SCHOOL_EC : List (String × ℚ) :=
  [("송도고", 1), ("하늘고", 2), ("아라고", 4), ("동산고", 8)]

/-- The keys of `SCHOOL_EC`, in dict iteration order. -/
def schoolNames : List String := SCHOOL_EC.map Prod.fst

/-- Python dict lookup in `SCHOOL_EC` (as used by `.map(SCHOOL_EC)` and
`SCHOOL_EC[school]`): the value for a present key, `none` for an absent one
(NaN under `.map`, KeyError under `[]`). -/
def ecFor (school : String) : Option ℚ :=
  (SCHOOL_EC.find? (fun p => p.1 == school)).map Prod.snd

/-- `find_file_by_name(directory, target_name)` of `src/main.py`: NFC-normalize
the target, scan the directory entries in iteration order, and return the
first entry whose NFC-normalized name equals the normalized target; `None`
when no entry matches. Generic in the entry type (directories hold files of
several kinds); `nameOf` extracts `file.name`. -/
def find_file_by_name {α : Type} (nfc : String → String) (nameOf : α → String)
    (dir : List α) (target : String) : Option α :=
  dir.find? (fun f => nfc (nameOf f) == nfc target)

/-- One parsed row of a per-school environment CSV
(columns `time, temperature, humidity, ph, ec`). -/
structure EnvRow where
  time : String
  temperature : ℚ
  humidity : ℚ
  ph : ℚ
  ec : ℚ
deriving DecidableEq, Repr

/-- An environment row after `df["학교"] = school`: the row plus the school
tag column. -/
structure EnvRecord extends EnvRow where
  school : String
deriving DecidableEq, Repr

/-- An environment CSV file in the data directory: a name and its parsed rows. -/
structure EnvFile where
  name : String
  rows : List EnvRow
deriving DecidableEq, Repr

/-- The expected filename of a school environment CSV: the school name
followed by the fixed suffix. -/
def envFileName (school : String) : String := school ++ "_환경데이터.csv"

/-- The `st.error` message for a missing school environment file. -/
def envErrorMsg (school : String) : String :=
  "❌ 환경 데이터 파일을 찾을 수 없습니다: " ++ school

/-- `df["학교"] = school`: tag every row of the parsed table with the school. -/
def tagEnv (school : String) (rows : List EnvRow) : List EnvRecord :=
  rows.map (fun r => ⟨r, school⟩)

/-- The loop body of `load_environment_data` over a list of schools: resolve
each school's file; on failure record the error and continue, on success add
the tagged table under the school key. Returns (dict as ordered assoc list,
error messages). -/
def loadEnvAux (nfc : String → String) (dir : List EnvFile) :
    List (String × ℚ) → List (String × List EnvRecord) × List String
  | [] => ([], [])
  | p :: rest =>
    let acc := loadEnvAux nfc dir rest
    match find_file_by_name nfc EnvFile.name dir (envFileName p.1) with
    | none => (acc.1, envErrorMsg p.1 :: acc.2)
    | some f => ((p.1, tagEnv p.1 f.rows) :: acc.1, acc.2)

/-- `load_environment_data()` of `src/main.py`: iterate the four schools of
`SCHOOL_EC`. -/
def load_environment_data (nfc : String → String) (dir : List EnvFile) :
    List (String × List EnvRecord) × List String :=
  loadEnvAux nfc dir SCHOOL_EC

/-- One parsed row of a growth sheet (columns 생중량(g), 잎 수(장),
지상부 길이(mm), 개체번호). -/
structure GrowthRow where
  freshWeight : ℚ
  leafCount : ℚ
  shootLength : ℚ
  plantId : ℚ
deriving DecidableEq, Repr

/-- A growth row after `df["학교"] = sheet`: the row plus the school tag. -/
structure GrowthRecord extends GrowthRow where
  school : String
deriving DecidableEq, Repr

/-- One sheet of the growth workbook: its name and parsed rows. -/
structure Sheet where
  name : String
  rows : List GrowthRow
deriving DecidableEq, Repr

/-- The growth workbook file: a name and its sheets in workbook order. -/
structure Workbook where
  name : String
  sheets : List Sheet
deriving DecidableEq, Repr

/-- The `st.error` message for a missing growth workbook. -/
def growthErrorMsg : String := "❌ 생육 결과 XLSX 파일을 찾을 수 없습니다."

/-- `df["학교"] = sheet` for a growth sheet. -/
def tagGrowth (sheet : String) (rows : List GrowthRow) : List GrowthRecord :=
  rows.map (fun r => ⟨r, sheet⟩)

/-- `load_growth_data()` of `src/main.py`: resolve the fixed workbook name; if
it is missing report an error and return the empty dict, otherwise parse every
sheet, tagging its rows with the sheet name and keying the dict by it. -/
def load_growth_data (nfc : String → String) (dir : List Workbook) :
    List (String × List GrowthRecord) × List String :=
  match find_file_by_name nfc Workbook.name dir "4개교_생육결과데이터.xlsx" with
  | none => ([], [growthErrorMsg])
  | some wb => (wb.sheets.map (fun s => (s.name, tagGrowth s.name s.rows)), [])

/-- pandas `Series.mean` on a nonempty series: sum divided by length (on an
empty series pandas yields NaN; the claims only concern loaded, nonempty
tables, and rational division by zero is the embedding's out-of-range value). -/
def listMean (xs : List ℚ) : ℚ := xs.sum / xs.length

/-- One row of `avg_df` in tab 2 of `src/main.py`: school, the four column
means, and `SCHOOL_EC[school]` (dict access, modelled as an `Option`). -/
structure AvgRow where
  school : String
  temperature : ℚ
  humidity : ℚ
  ph : ℚ
  ec : ℚ
  target_ec : Option ℚ
deriving DecidableEq, Repr

/-- Tab 2 of `src/main.py`: the `avg_rows` loop over `env_data.items()`,
producing one row per loaded school with the four per-column means and the
target EC from `SCHOOL_EC`. -/
def avg_df (env : List (String × List EnvRecord)) : List AvgRow :=
  env.map (fun p =>
    { school := p.1
      temperature := listMean (p.2.map (fun r => r.temperature))
      humidity := listMean (p.2.map (fun r => r.humidity))
      ph := listMean (p.2.map (fun r => r.ph))
      ec := listMean (p.2.map (fun r => r.ec))
      target_ec := ecFor p.1 })

/-- `pd.concat(growth_data.values())`: all loaded growth records in dict order. -/
def growth_all (g : List (String × List GrowthRecord)) : List GrowthRecord :=
  (g.map Prod.snd).flatten

/-- A growth record after `growth_all["EC"] = growth_all["학교"].map(SCHOOL_EC)`:
the record with its derived EC column (`none` models NaN for an unmapped
school). -/
structure GRow where
  row : GrowthRecord
  EC : Option ℚ
deriving DecidableEq, Repr

/-- Add the derived EC column to every record. -/
def withEC (rows : List GrowthRecord) : List GRow :=
  rows.map (fun r => ⟨r, ecFor r.school⟩)

/-- Insert a key into a sorted key list (ascending), for the sorted group keys
of a pandas `groupby`. -/
def insertSorted (x : ℚ) : List ℚ → List ℚ
  | [] => [x]
  | y :: ys => if x ≤ y then x :: y :: ys else y :: insertSorted x ys

/-- Insertion sort of the group keys. -/
def sortKeys : List ℚ → List ℚ
  | [] => []
  | x :: xs => insertSorted x (sortKeys xs)

/-- The group keys of `growth_all.groupby("EC")`: the distinct non-null EC
values, in ascending order (pandas sorts group keys and drops NaN keys). -/
def ecKeys (rows : List GRow) : List ℚ :=
  sortKeys (rows.filterMap GRow.EC).dedup

/-- The rows of one EC group: the rows whose EC column equals the key
(a NaN/`none` EC belongs to no group). -/
def ecGroup (rows : List GRow) (k : ℚ) : List GRow :=
  rows.filter (fun r => r.EC == some k)

/-- `growth_all.groupby("EC")`: key-sorted groups of the rows with that
non-null EC value. -/
def groupbyEC (rows : List GRow) : List (ℚ × List GRow) :=
  (ecKeys rows).map (fun k => (k, ecGroup rows k))

/-- `ec_weight = growth_all.groupby("EC")["생중량(g)"].mean()`: per-EC mean
fresh weight, as (EC, mean) pairs in key order. -/
def ec_weight (rows : List GRow) : List (ℚ × ℚ) :=
  (groupbyEC rows).map (fun p => (p.1, listMean (p.2.map (fun g => g.row.freshWeight))))

/-- One step of the `idxmax` scan: keep the running maximum, replacing it only
on a strictly larger value. -/
def bestStep (acc : Option (ℚ × ℚ)) (p : ℚ × ℚ) : Option (ℚ × ℚ) :=
  match acc with
  | none => some p
  | some q => if q.2 < p.2 then some p else some q

/-- `ec_weight.loc[ec_weight["생중량(g)"].idxmax()]`: pandas `idxmax` keeps the
running maximum, replacing it only on a strictly larger value, so the first
maximal row in table order wins; `none` only on an empty table. -/
def best_ec (pairs : List (ℚ × ℚ)) : Option (ℚ × ℚ) :=
  pairs.foldl bestStep none

/-- `growth_all.groupby("EC")[col].mean()` for a metric column, one value per
group key in key order (tab 3, `fig_metrics`). -/
def groupMeanByEC (rows : List GRow) (col : GrowthRecord → ℚ) : List (ℚ × ℚ) :=
  (groupbyEC rows).map (fun p => (p.1, listMean (p.2.map (fun g => col g.row))))

/-- `growth_all.groupby("EC")[col].count()` (tab 3, the 개체수 panel). -/
def groupCountByEC (rows : List GRow) : List (ℚ × ℕ) :=
  (groupbyEC rows).map (fun p => (p.1, p.2.length))

/-- Sample (n-1) variance of a series, as in pandas `Series.std` squared. -/
def sampleVar (xs : List ℚ) : ℚ :=
  (xs.map (fun x => (x - listMean xs) ^ 2)).sum / (xs.length - 1 : ℕ)

/-- Modelled from the spec: one output row of `summarizeGrowth` — the
school/EC group key with mean fresh weight, sample standard deviation
(`none` when undefined, i.e. fewer than two samples), count, and CV.
The variant of this repository computing std and CV is not under `src/`
(`src/main.py` only computes the per-EC means); the numeric square root of
the host's float library is the abstract parameter `sqrtQ`. -/
structure GrowthSummaryRow where
  key : ℚ
  meanW : ℚ
  stdW : Option ℚ
  count : ℕ
  cv : Option ℚ
deriving DecidableEq, Repr

/-- Modelled from the spec: the per-group statistics of `summarizeGrowth` for
one school/EC group with fresh weights `ws` — mean, sample std (undefined on
fewer than two samples), count, and `CV = std/mean` with the explicit guard
`CV = 0` when the mean is exactly 0 (the guard, not a division); when the
guard does not apply and std is undefined, CV is undefined. -/
def summarizeGrowthGroup (sqrtQ : ℚ → ℚ) (k : ℚ) (ws : List ℚ) : GrowthSummaryRow :=
  { key := k
    meanW := listMean ws
    stdW := if ws.length < 2 then none else some (sqrtQ (sampleVar ws))
    count := ws.length
    cv :=
      if listMean ws = 0 then some 0
      else if ws.length < 2 then none
      else some (sqrtQ (sampleVar ws) / listMean ws) }

/-- Modelled from the spec: `summarizeGrowth(records)` — one summary row per
school/EC group of the records. -/
def summarizeGrowth (sqrtQ : ℚ → ℚ) (rows : List GRow) : List GrowthSummaryRow :=
  (groupbyEC rows).map
    (fun p => summarizeGrowthGroup sqrtQ p.1 (p.2.map (fun g => g.row.freshWeight)))

/-! ## CSV serialization (tab 2 download of the combined environment table)

`combined_env.to_csv(index=False)` writes a header line and one line per
record, cells joined by commas, lines by newlines; `pd.read_csv` splits them
back. The CSV text is modelled at character-list level; the rendering of a
rational cell value to text (pandas float formatting) and its re-parsing are
abstract parameters `render` / `pnum`, faithful codecs of the host library. -/

/-- The CSV cell separator. -/
def commaChar : Char := ','

/-- The CSV record separator. -/
def newlineChar : Char := Char.ofNat 10

/-- Join chunks with a separator character between them. -/
def joinSep (sep : Char) : List (List Char) → List Char
  | [] => []
  | [x] => x
  | x :: y :: xs => x ++ sep :: joinSep sep (y :: xs)

/-- Split a character list at every occurrence of the separator. -/
def splitSep (sep : Char) : List Char → List (List Char)
  | [] => [[]]
  | c :: l =>
    if c = sep then [] :: splitSep sep l
    else
      match splitSep sep l with
      | [] => [[c]]
      | g :: gs => (c :: g) :: gs

/-- `DataFrame.to_csv`: comma-joined cells, newline-joined lines. -/
def to_csv (table : List (List (List Char))) : List Char :=
  joinSep newlineChar (table.map (joinSep commaChar))

/-- `pd.read_csv`, at the cell level: split lines, then split cells. -/
def read_csv (s : List Char) : List (List (List Char)) :=
  (splitSep newlineChar s).map (splitSep commaChar)

/-- The header line written for the combined environment table
(`time,temperature,humidity,ph,ec,학교`). -/
def envHeader : List (List Char) :=
  ["time".data, "temperature".data, "humidity".data, "ph".data, "ec".data,
    "학교".data]

/-- The cells of one environment record as written by `to_csv`, numeric cells
through the rendering function. -/
def renderEnvRecord (render : ℚ → List Char) (r : EnvRecord) : List (List Char) :=
  [r.time.data, render r.temperature, render r.humidity, render r.ph,
    render r.ec, r.school.data]

/-- `combined_env = pd.concat(env_data.values())`. -/
def combined_env (env : List (String × List EnvRecord)) : List EnvRecord :=
  (env.map Prod.snd).flatten

/-- The downloadable CSV of the combined environment table: header line plus
one line per record. -/
def env_to_csv (render : ℚ → List Char) (records : List EnvRecord) : List Char :=
  to_csv (envHeader :: records.map (renderEnvRecord render))

/-- Re-parsing one CSV line into an environment record: six cells, the four
numeric ones through the numeric parser. -/
def parseEnvRecord (pnum : List Char → Option ℚ) : List (List Char) → Option EnvRecord
  | [t, c1, c2, c3, c4, s] =>
    match pnum c1, pnum c2, pnum c3, pnum c4 with
    | some q1, some q2, some q3, some q4 =>
      some ⟨⟨String.mk t, q1, q2, q3, q4⟩, String.mk s⟩
    | _, _, _, _ => none
  | _ => none

/-- Re-parsing the downloaded CSV: drop the header line, parse each data line. -/
def env_read_csv (pnum : List Char → Option ℚ) (s : List Char) :
    List (Option EnvRecord) :=
  ((read_csv s).drop 1).map (parseEnvRecord pnum)

/-! ## Concrete fixtures used by witnesses and the counterexample -/

/-- A one-file data directory holding only 하늘고's environment file. -/
def envDirHaneul : List EnvFile := [⟨"하늘고_환경데이터.csv", []⟩]

/-- A growth workbook whose single sheet is named after no school of the EC
mapping. -/
def fakeWorkbookDir : List Workbook :=
  [⟨"4개교_생육결과데이터.xlsx", [⟨"가짜고", [⟨1, 2, 3, 4⟩]⟩]⟩]

/-- A loaded growth dict holding only the unmapped sheet 가짜고. -/
def fakeGrowthDict : List (String × List GrowthRecord) :=
  [("가짜고", [⟨⟨1, 2, 3, 4⟩, "가짜고"⟩])]

/-- A concrete numeric rendering covering the cell values 1–4 (witness codec). -/
def renderW (q : ℚ) : List Char :=
  if q = 1 then [ '1' ] else if q = 2 then [ '2' ]
  else if q = 3 then [ '3' ] else [ '4' ]

/-- The inverse parser of `renderW` on its range. -/
def pnumW (s : List Char) : Option ℚ :=
  if s = [ '1' ] then some 1 else if s = [ '2' ] then some 2
  else if s = [ '3' ] then some 3 else if s = [ '4' ] then some 4 else none

/-- A one-school loaded environment dict with one record (witness fixture). -/
def envDictW : List (String × List EnvRecord) :=
  [("하늘고", [⟨⟨"t0", 1, 2, 3, 4⟩, "하늘고"⟩])]

/-! ## Helper lemmas -/

theorem ecFor_eq_none_of_not_mem {s : String} (hs : s ∉ schoolNames) : ecFor s = none := by
  have h : SCHOOL_EC.find? (fun p => p.1 == s) = none := by
    rw [List.find?_eq_none]
    intro p hp
    simp only [beq_iff_eq]
    intro h
    exact hs (h ▸ List.mem_map_of_mem Prod.fst hp)
  simp [ecFor, h]

theorem ecFor_isSome_of_mem {s : String} (hs : s ∈ schoolNames) : (ecFor s).isSome := by
  have h : ∀ x ∈ schoolNames, (ecFor x).isSome := by decide
  exact h s hs

theorem loadEnvAux_keys (nfc : String → String) (dir : List EnvFile) :
    ∀ schools : List (String × ℚ),
      (loadEnvAux nfc dir schools).1.map Prod.fst =
        (schools.map Prod.fst).filter
          (fun s => (find_file_by_name nfc EnvFile.name dir (envFileName s)).isSome)
  | [] => rfl
  | p :: rest => by
    have ih := loadEnvAux_keys nfc dir rest
    cases h : find_file_by_name nfc EnvFile.name dir (envFileName p.1) with
    | none => simp [loadEnvAux, h, ih]
    | some f => simp [loadEnvAux, h, ih]

theorem loadEnvAux_mem (nfc : String → String) (dir : List EnvFile) :
    ∀ schools : List (String × ℚ), ∀ s recs,
      (s, recs) ∈ (loadEnvAux nfc dir schools).1 →
        ∃ f, find_file_by_name nfc EnvFile.name dir (envFileName s) = some f ∧
          recs = tagEnv s f.rows
  | [], _, _, h => by simp [loadEnvAux] at h
  | p :: rest, s, recs, h => by
    rw [loadEnvAux] at h
    cases hf : find_file_by_name nfc EnvFile.name dir (envFileName p.1) with
    | none =>
      rw [hf] at h
      exact loadEnvAux_mem nfc dir rest s recs h
    | some f =>
      rw [hf] at h
      rcases List.mem_cons.mp h with h1 | h1
      · obtain ⟨rfl, rfl⟩ := Prod.mk.injEq .. ▸ h1
        exact ⟨f, hf, rfl⟩
      · exact loadEnvAux_mem nfc dir rest s recs h1

theorem loadEnvAux_errors (nfc : String → String) (dir : List EnvFile) :
    ∀ schools : List (String × ℚ), ∀ s, s ∈ schools.map Prod.fst →
      find_file_by_name nfc EnvFile.name dir (envFileName s) = none →
        envErrorMsg s ∈ (loadEnvAux nfc dir schools).2
  | [], s, hs, _ => by simp at hs
  | p :: rest, s, hs, hf => by
    rw [loadEnvAux]
    rw [List.map_cons] at hs
    rcases List.mem_cons.mp hs with h1 | h1
    · subst h1
      rw [hf]
      exact List.mem_cons_self _ _
    · have ih := loadEnvAux_errors nfc dir rest s h1 hf
      cases hp : find_file_by_name nfc EnvFile.name dir (envFileName p.1) with
      | none => exact List.mem_cons_of_mem _ ih
      | some f => exact ih

/-! ## Claim theorems -/

/-- C1: `find_file_by_name` returns an entry iff some entry's NFC-normalized
name equals the NFC-normalized target; it returns `none` exactly when no entry
matches; and any returned entry is the first matching entry in directory
iteration order. -/
theorem find_file_by_name_resolves (α : Type) (nfc : String → String)
    (nameOf : α → String) (dir : List α) (target : String) :
    ((find_file_by_name nfc nameOf dir target).isSome ↔
      ∃ f ∈ dir, nfc (nameOf f) = nfc target)
    ∧ (find_file_by_name nfc nameOf dir target = none ↔
      ∀ f ∈ dir, nfc (nameOf f) ≠ nfc target)
    ∧ (∀ f, find_file_by_name nfc nameOf dir target = some f →
      nfc (nameOf f) = nfc target ∧
        ∃ pre post, dir = pre ++ f :: post ∧ ∀ g ∈ pre, nfc (nameOf g) ≠ nfc target) := by
  refine ⟨?_, ?_, ?_⟩
  · simp [find_file_by_name, List.find?_isSome]
  · simp [find_file_by_name, List.find?_eq_none]
  · intro f h
    rw [find_file_by_name, List.find?_eq_some] at h
    obtain ⟨hp, pre, post, rfl, hall⟩ := h
    refine ⟨by simpa using hp, pre, post, rfl, ?_⟩
    intro g hg
    simpa using hall g hg

/-- Witness for C1 at a concrete two-entry directory. -/
theorem find_file_by_name_resolves_witness :
    (find_file_by_name id id ["alpha.csv", "beta.csv"] "beta.csv").isSome :=
  (find_file_by_name_resolves String id id ["alpha.csv", "beta.csv"] "beta.csv").1.mpr
    ⟨"beta.csv", by decide, rfl⟩

/-- C6: the EC mapping is a pure total lookup over the four fixed schools with
values 1.0, 2.0, 4.0, 8.0 (in particular 하늘고 ↦ 2.0), and any identifier not
among the four yields the explicit unmapped signal `none`, never a default. -/
theorem ecFor_spec :
    ecFor "송도고" = some 1 ∧ ecFor "하늘고" = some 2 ∧ ecFor "아라고" = some 4 ∧
      ecFor "동산고" = some 8 ∧ ∀ s, s ∉ schoolNames → ecFor s = none := by
  refine ⟨by decide, by decide, by decide, by decide, ?_⟩
  intro s hs
  exact ecFor_eq_none_of_not_mem hs

/-- Witness for C6 at a concrete unmapped school name. -/
theorem ecFor_spec_witness : ecFor "부산고" = none :=
  ecFor_spec.2.2.2.2 "부산고" (by decide)

theorem bestStep_foldl_spec :
    ∀ (l : List (ℚ × ℚ)) (q : ℚ × ℚ),
      ∃ r, l.foldl bestStep (some q) = some r ∧
        ((r = q ∧ ∀ x ∈ l, x.2 ≤ q.2) ∨
          (∃ pre post, l = pre ++ r :: post ∧ q.2 < r.2 ∧
            (∀ y ∈ pre, y.2 < r.2) ∧ ∀ y ∈ post, y.2 ≤ r.2))
  | [], q => ⟨q, rfl, Or.inl ⟨rfl, by simp⟩⟩
  | p :: l, q => by
    rw [List.foldl_cons]
    by_cases h : q.2 < p.2
    · have hstep : bestStep (some q) p = some p := by simp [bestStep, h]
      rw [hstep]
      obtain ⟨r, hr, hcase⟩ := bestStep_foldl_spec l p
      refine ⟨r, hr, Or.inr ?_⟩
      rcases hcase with ⟨rfl, hle⟩ | ⟨pre, post, rfl, hlt, h1, h2⟩
      · exact ⟨[], l, rfl, h, by simp, hle⟩
      · refine ⟨p :: pre, post, rfl, lt_trans h hlt, ?_, h2⟩
        intro y hy
        rcases List.mem_cons.mp hy with rfl | hy2
        · exact hlt
        · exact h1 y hy2
    · have hstep : bestStep (some q) p = some q := by simp [bestStep, h]
      rw [hstep]
      obtain ⟨r, hr, hcase⟩ := bestStep_foldl_spec l q
      refine ⟨r, hr, ?_⟩
      rcases hcase with ⟨rfl, hle⟩ | ⟨pre, post, rfl, hlt, h1, h2⟩
      · refine Or.inl ⟨rfl, ?_⟩
        intro x hx
        rcases List.mem_cons.mp hx with rfl | hx2
        · exact le_of_not_lt h
        · exact hle x hx2
      · refine Or.inr ⟨p :: pre, post, rfl, hlt, ?_, h2⟩
        intro y hy
        rcases List.mem_cons.mp hy with rfl | hy2
        · exact lt_of_le_of_lt (le_of_not_lt h) hlt
        · exact h1 y hy2

/-- C5: `best_ec` returns a row of the per-EC table whose mean fresh weight is
maximal, and among ties the first maximal row in table iteration order (every
earlier row is strictly smaller, every later row is no larger); on a nonempty
table it always returns a row; on the table
{1.0 ↦ 5.2, 2.0 ↦ 9.8, 4.0 ↦ 7.1, 8.0 ↦ 4.0} it returns EC 2.0. -/
theorem best_ec_spec (pairs : List (ℚ × ℚ)) :
    (∀ p, best_ec pairs = some p →
      p ∈ pairs ∧ (∀ q ∈ pairs, q.2 ≤ p.2) ∧
        ∃ pre post, pairs = pre ++ p :: post ∧
          (∀ y ∈ pre, y.2 < p.2) ∧ ∀ y ∈ post, y.2 ≤ p.2)
    ∧ (pairs ≠ [] → (best_ec pairs).isSome)
    ∧ best_ec [(1, 5.2), (2, 9.8), (4, 7.1), (8, 4.0)] = some (2, 9.8) := by
  refine ⟨?_, ?_, by norm_num [best_ec, bestStep]⟩
  · intro p hp
    rcases pairs with _ | ⟨a, l⟩
    · simp [best_ec] at hp
    · rw [best_ec, List.foldl_cons] at hp
      have ha : bestStep none a = some a := rfl
      rw [ha] at hp
      obtain ⟨r, hr, hcase⟩ := bestStep_foldl_spec l a
      rw [hr] at hp
      obtain rfl : r = p := Option.some.inj hp
      rcases hcase with ⟨heq, hle⟩ | ⟨pre, post, rfl, hlt, h1, h2⟩
      · subst heq
        refine ⟨List.mem_cons_self _ _, ?_, [], l, rfl, by simp, hle⟩
        intro q hq
        rcases List.mem_cons.mp hq with rfl | hq2
        · exact le_refl _
        · exact hle q hq2
      · refine ⟨?_, ?_, a :: pre, post, rfl, ?_, h2⟩
        · exact List.mem_cons_of_mem a (by simp)
        · intro q hq
          rcases List.mem_cons.mp hq with rfl | hq2
          · exact le_of_lt hlt
          · rcases List.mem_append.mp hq2 with hq3 | hq3
            · exact le_of_lt (h1 q hq3)
            · rcases List.mem_cons.mp hq3 with rfl | hq4
              · exact le_refl _
              · exact h2 q hq4
        · intro y hy
          rcases List.mem_cons.mp hy with rfl | hy2
          · exact hlt
          · exact h1 y hy2
  · intro hne
    rcases pairs with _ | ⟨a, l⟩
    · exact absurd rfl hne
    · rw [best_ec, List.foldl_cons]
      have ha : bestStep none a = some a := rfl
      rw [ha]
      obtain ⟨r, hr, _⟩ := bestStep_foldl_spec l a
      rw [hr]
      rfl

/-- Witness for C5 on a concrete nonempty table. -/
theorem best_ec_spec_witness : (best_ec [(3, 5)]).isSome :=
  (best_ec_spec [(3, 5)]).2.1 (by decide)

/-- C4: each growth summary row carries the group's mean fresh weight, sample
standard deviation (undefined below two samples), count, and CV = std/mean,
where CV is exactly 0 whenever the group mean is exactly 0 (the explicit
guard, never a division fault), CV is undefined when the guard does not apply
and std is undefined, and in particular an all-zero group has CV exactly 0. -/
theorem summarizeGrowth_cv_guard (sqrtQ : ℚ → ℚ) (k : ℚ) (ws : List ℚ) :
    ((summarizeGrowthGroup sqrtQ k ws).meanW = listMean ws)
    ∧ ((summarizeGrowthGroup sqrtQ k ws).count = ws.length)
    ∧ ((summarizeGrowthGroup sqrtQ k ws).stdW = none ↔ ws.length < 2)
    ∧ (listMean ws = 0 → (summarizeGrowthGroup sqrtQ k ws).cv = some 0)
    ∧ (listMean ws ≠ 0 → ws.length < 2 → (summarizeGrowthGroup sqrtQ k ws).cv = none)
    ∧ (listMean ws ≠ 0 → 2 ≤ ws.length →
        (summarizeGrowthGroup sqrtQ k ws).cv =
          some (sqrtQ (sampleVar ws) / listMean ws))
    ∧ ((∀ w ∈ ws, w = 0) → (summarizeGrowthGroup sqrtQ k ws).cv = some 0) := by
  refine ⟨rfl, rfl, ?_, ?_, ?_, ?_, ?_⟩
  · by_cases h : ws.length < 2 <;> simp [summarizeGrowthGroup, h]
  · intro h
    simp [summarizeGrowthGroup, h]
  · intro h hlen
    simp [summarizeGrowthGroup, h, hlen]
  · intro h hlen
    have hnot : ¬ ws.length < 2 := Nat.not_lt.mpr hlen
    simp [summarizeGrowthGroup, h, hnot]
  · intro h
    have hm : listMean ws = 0 := by
      rw [listMean, List.sum_eq_zero h, zero_div]
    simp [summarizeGrowthGroup, hm]

/-- Witness for C4: an all-zero three-sample group has CV exactly 0. -/
theorem summarizeGrowth_cv_guard_witness :
    (summarizeGrowthGroup id 1 [0, 0, 0]).cv = some 0 :=
  (summarizeGrowth_cv_guard id 1 [0, 0, 0]).2.2.2.1 (by norm_num [listMean])

/-- C2: `load_environment_data` returns exactly the resolvable schools, in
school order — each mapped to its file's rows tagged with that school — while
an unresolvable school is absent from the result, its error message is
recorded, and the remaining schools are still loaded. -/
theorem load_environment_per_school (nfc : String → String) (dir : List EnvFile) :
    ((load_environment_data nfc dir).1.map Prod.fst =
      schoolNames.filter
        (fun s => (find_file_by_name nfc EnvFile.name dir (envFileName s)).isSome))
    ∧ (∀ s recs, (s, recs) ∈ (load_environment_data nfc dir).1 →
        ∃ f, find_file_by_name nfc EnvFile.name dir (envFileName s) = some f ∧
          recs = tagEnv s f.rows ∧ ∀ r ∈ recs, r.school = s)
    ∧ (∀ s, s ∈ schoolNames →
        find_file_by_name nfc EnvFile.name dir (envFileName s) = none →
          (∀ recs, (s, recs) ∉ (load_environment_data nfc dir).1) ∧
            envErrorMsg s ∈ (load_environment_data nfc dir).2) := by
  refine ⟨loadEnvAux_keys nfc dir SCHOOL_EC, ?_, ?_⟩
  · intro s recs h
    obtain ⟨f, hf, hrecs⟩ := loadEnvAux_mem nfc dir SCHOOL_EC s recs h
    refine ⟨f, hf, hrecs, ?_⟩
    subst hrecs
    intro r hr
    rw [tagEnv] at hr
    obtain ⟨row, hrow, rfl⟩ := List.mem_map.mp hr
    rfl
  · intro s hs hnone
    refine ⟨?_, loadEnvAux_errors nfc dir SCHOOL_EC s hs hnone⟩
    intro recs hmem
    obtain ⟨f, hf, _⟩ := loadEnvAux_mem nfc dir SCHOOL_EC s recs hmem
    rw [hnone] at hf
    exact Option.noConfusion hf

/-- Witness for C2: with only 하늘고's file present, the missing-file error for
송도고 is recorded while loading continues. -/
theorem load_environment_per_school_witness :
    envErrorMsg "송도고" ∈ (load_environment_data id envDirHaneul).2 :=
  ((load_environment_per_school id envDirHaneul).2.2 "송도고" (by decide) (by decide)).2

/-- C3: if the growth workbook cannot be resolved the load fails totally (the
returned dict is empty, with the error recorded, containing no partial
sheets); if it resolves, every sheet of the workbook is parsed, keyed and
tagged with its sheet name as the school identifier. -/
theorem load_growth_total (nfc : String → String) (dir : List Workbook) :
    (find_file_by_name nfc Workbook.name dir "4개교_생육결과데이터.xlsx" = none →
      (load_growth_data nfc dir).1 = [] ∧
        growthErrorMsg ∈ (load_growth_data nfc dir).2)
    ∧ (∀ wb, find_file_by_name nfc Workbook.name dir "4개교_생육결과데이터.xlsx" = some wb →
      ((load_growth_data nfc dir).1.map Prod.fst = wb.sheets.map Sheet.name)
      ∧ ∀ p ∈ (load_growth_data nfc dir).1,
          ∃ sh ∈ wb.sheets, sh.name = p.1 ∧ p.2 = tagGrowth p.1 sh.rows ∧
            ∀ r ∈ p.2, r.school = p.1) := by
  constructor
  · intro h
    simp [load_growth_data, h]
  · intro wb h
    simp only [load_growth_data, h]
    constructor
    · simp
    · intro p hp
      obtain ⟨sh, hsh, rfl⟩ := List.mem_map.mp hp
      refine ⟨sh, hsh, rfl, rfl, ?_⟩
      intro r hr
      rw [tagGrowth] at hr
      obtain ⟨row, hrow, rfl⟩ := List.mem_map.mp hr
      rfl

/-- Witness for C3: an empty data directory gives a total growth-load failure. -/
theorem load_growth_total_witness : (load_growth_data id []).1 = [] :=
  ((load_growth_total id []).1 rfl).1

theorem load_env_key_mem (nfc : String → String) (dir : List EnvFile)
    {p : String × List EnvRecord} (hp : p ∈ (load_environment_data nfc dir).1) :
    p.1 ∈ schoolNames := by
  have h1 : p.1 ∈ (loadEnvAux nfc dir SCHOOL_EC).1.map Prod.fst :=
    List.mem_map_of_mem Prod.fst hp
  rw [loadEnvAux_keys nfc dir SCHOOL_EC] at h1
  exact List.mem_of_mem_filter h1

/-- C7: the tab-2 environment summary has exactly one row per loaded school,
carrying that school's mean temperature, mean humidity, mean pH, mean measured
EC, and its target EC from the EC mapping. -/
theorem avg_df_one_row_per_school (nfc : String → String) (dir : List EnvFile) :
    List.Forall₂
      (fun (p : String × List EnvRecord) (row : AvgRow) =>
        row.school = p.1 ∧
        row.temperature = listMean (p.2.map (fun r => r.temperature)) ∧
        row.humidity = listMean (p.2.map (fun r => r.humidity)) ∧
        row.ph = listMean (p.2.map (fun r => r.ph)) ∧
        row.ec = listMean (p.2.map (fun r => r.ec)) ∧
        ∃ e, ecFor p.1 = some e ∧ row.target_ec = some e)
      (load_environment_data nfc dir).1
      (avg_df (load_environment_data nfc dir).1)
    ∧ (avg_df (load_environment_data nfc dir).1).length =
        (load_environment_data nfc dir).1.length := by
  constructor
  · rw [avg_df, List.forall₂_map_right_iff, List.forall₂_same]
    intro p hp
    refine ⟨rfl, rfl, rfl, rfl, rfl, ?_⟩
    obtain ⟨e, he⟩ :=
      Option.isSome_iff_exists.mp (ecFor_isSome_of_mem (load_env_key_mem nfc dir hp))
    exact ⟨e, he, by simp only [he]⟩
  · simp [avg_df]

/-- Witness for C7: on the one-file directory the summary has exactly as many
rows as there are loaded schools. -/
theorem avg_df_one_row_per_school_witness :
    (avg_df (load_environment_data id envDirHaneul).1).length =
      (load_environment_data id envDirHaneul).1.length :=
  (avg_df_one_row_per_school id envDirHaneul).2

/-- Counterexample to C8 as stated: loading a workbook whose sheet name is not
one of the four schools yields a growth record whose school identifier is not
present in the EC mapping — `load_growth_data` never validates sheet names. -/
theorem growth_school_in_mapping_counterexample :
    ∃ p ∈ (load_growth_data id fakeWorkbookDir).1, ∃ r ∈ p.2,
      r.school ∉ schoolNames := by
  decide

/-- C8 (amended): every loaded environment dict entry is keyed by one of the
four schools of the EC mapping (so its target EC is defined) and all its
records carry exactly that school identifier; every loaded growth record
carries exactly one school identifier, namely its sheet's name — which is in
the EC mapping only when the sheet is named after one of the four schools. -/
theorem records_school_tagging (nfc : String → String) (dirE : List EnvFile)
    (dirW : List Workbook) :
    (∀ p ∈ (load_environment_data nfc dirE).1,
      p.1 ∈ schoolNames ∧ (ecFor p.1).isSome ∧ ∀ r ∈ p.2, r.school = p.1)
    ∧ (∀ p ∈ (load_growth_data nfc dirW).1, ∀ r ∈ p.2, r.school = p.1) := by
  constructor
  · intro p hp
    refine ⟨load_env_key_mem nfc dirE hp,
      ecFor_isSome_of_mem (load_env_key_mem nfc dirE hp), ?_⟩
    obtain ⟨s, recs⟩ := p
    obtain ⟨f, hf, hrecs⟩ := loadEnvAux_mem nfc dirE SCHOOL_EC s recs hp
    subst hrecs
    intro r hr
    rw [tagEnv] at hr
    obtain ⟨row, hrow, rfl⟩ := List.mem_map.mp hr
    rfl
  · intro p hp
    obtain ⟨s, recs⟩ := p
    cases hfind : find_file_by_name nfc Workbook.name dirW "4개교_생육결과데이터.xlsx" with
    | none =>
      simp only [load_growth_data, hfind] at hp
      exact absurd hp (List.not_mem_nil _)
    | some wb =>
      simp only [load_growth_data, hfind] at hp
      obtain ⟨sh, hsh, heq⟩ := List.mem_map.mp hp
      injection heq with h1 h2
      subst h1
      subst h2
      intro r hr
      rw [tagGrowth] at hr
      obtain ⟨row, hrow, rfl⟩ := List.mem_map.mp hr
      rfl

/-- Witness for the amended C8 at the one-file environment directory. -/
theorem records_school_tagging_witness :
    "하늘고" ∈ schoolNames ∧ (ecFor "하늘고").isSome ∧
      ∀ r ∈ ([] : List EnvRecord), r.school = "하늘고" :=
  (records_school_tagging id envDirHaneul []).1 ("하늘고", []) (by decide)

/-- C10: a growth record whose school identifier (sheet name) is not in the EC
mapping gets a null derived EC under the `.map(SCHOOL_EC)` join, so it belongs
to no per-EC group of `groupby("EC")` — hence contributes to no per-EC
aggregate (mean fresh weight, best-EC input, metric summaries, counts) — yet
it still appears in the concatenated growth table used by the per-school
views. -/
theorem unmapped_sheet_excluded (g : List (String × List GrowthRecord))
    (r : GrowthRecord) (hmem : r ∈ growth_all g) (hout : r.school ∉ schoolNames) :
    ecFor r.school = none
    ∧ (⟨r, none⟩ : GRow) ∈ withEC (growth_all g)
    ∧ (∀ p ∈ groupbyEC (withEC (growth_all g)), (⟨r, none⟩ : GRow) ∉ p.2)
    ∧ (∀ p ∈ groupbyEC (withEC (growth_all g)), ∀ x ∈ p.2, x.EC = some p.1) := by
  have hec : ecFor r.school = none := ecFor_eq_none_of_not_mem hout
  refine ⟨hec, ?_, ?_, ?_⟩
  · rw [withEC]
    have h := List.mem_map_of_mem (fun x => (⟨x, ecFor x.school⟩ : GRow)) hmem
    simp only at h
    rw [hec] at h
    exact h
  · intro p hp hin
    obtain ⟨k, hk, rfl⟩ := List.mem_map.mp hp
    rw [ecGroup] at hin
    have h := List.of_mem_filter hin
    simp only [beq_iff_eq] at h
    exact Option.noConfusion h
  · intro p hp x hx
    obtain ⟨k, hk, rfl⟩ := List.mem_map.mp hp
    rw [ecGroup] at hx
    have h := List.of_mem_filter hx
    simpa using h

/-- Witness for C10: the 가짜고 record's derived EC is null. -/
theorem unmapped_sheet_excluded_witness : ecFor "가짜고" = none :=
  (unmapped_sheet_excluded fakeGrowthDict ⟨⟨1, 2, 3, 4⟩, "가짜고"⟩
    (by decide) (by decide)).1

theorem joinSep_cons_cons (sep : Char) (x y : List Char) (xs : List (List Char)) :
    joinSep sep (x :: y :: xs) = x ++ sep :: joinSep sep (y :: xs) := rfl

theorem splitSep_cons_reduce (sep c : Char) (l : List Char) :
    splitSep sep (c :: l) =
      if c = sep then [] :: splitSep sep l
      else
        match splitSep sep l with
        | [] => [[c]]
        | g :: gs => (c :: g) :: gs := rfl

theorem splitSep_no_sep (sep : Char) :
    ∀ x : List Char, sep ∉ x → splitSep sep x = [x]
  | [], _ => rfl
  | c :: x, h => by
    have hc : ¬ c = sep := by
      intro he
      apply h
      rw [← he]
      exact List.mem_cons_self c x
    rw [splitSep_cons_reduce, if_neg hc,
      splitSep_no_sep sep x (fun hm => h (List.mem_cons_of_mem c hm))]

theorem splitSep_append_sep (sep : Char) :
    ∀ (x l : List Char), sep ∉ x →
      splitSep sep (x ++ sep :: l) = x :: splitSep sep l
  | [], l, _ => by
    rw [List.nil_append, splitSep_cons_reduce, if_pos rfl]
  | c :: x, l, h => by
    have hc : ¬ c = sep := by
      intro he
      apply h
      rw [← he]
      exact List.mem_cons_self c x
    rw [List.cons_append, splitSep_cons_reduce, if_neg hc,
      splitSep_append_sep sep x l (fun hm => h (List.mem_cons_of_mem c hm))]

theorem mem_joinSep (sep : Char) :
    ∀ (xs : List (List Char)) (c : Char),
      c ∈ joinSep sep xs → c = sep ∨ ∃ x ∈ xs, c ∈ x
  | [], c, h => by simp [joinSep] at h
  | [x], c, h => Or.inr ⟨x, List.mem_cons_self x [], h⟩
  | x :: y :: xs, c, h => by
    rw [joinSep_cons_cons] at h
    rcases List.mem_append.mp h with h1 | h1
    · exact Or.inr ⟨x, List.mem_cons_self x (y :: xs), h1⟩
    · rcases List.mem_cons.mp h1 with h2 | h2
      · exact Or.inl h2
      · rcases mem_joinSep sep (y :: xs) c h2 with h3 | ⟨z, hz, hcz⟩
        · exact Or.inl h3
        · exact Or.inr ⟨z, List.mem_cons_of_mem x hz, hcz⟩

theorem splitSep_joinSep (sep : Char) :
    ∀ xs : List (List Char), xs ≠ [] → (∀ x ∈ xs, sep ∉ x) →
      splitSep sep (joinSep sep xs) = xs
  | [], h, _ => absurd rfl h
  | [x], _, hs => by
    have hj : joinSep sep [x] = x := rfl
    rw [hj, splitSep_no_sep sep x (hs x (List.mem_cons_self x []))]
  | x :: y :: xs, _, hs => by
    rw [joinSep_cons_cons,
      splitSep_append_sep sep x _ (hs x (List.mem_cons_self x (y :: xs))),
      splitSep_joinSep sep (y :: xs) (by simp)
        (fun z hz => hs z (List.mem_cons_of_mem x hz))]

theorem read_csv_to_csv (table : List (List (List Char)))
    (hne : table ≠ [])
    (hrow : ∀ row ∈ table, row ≠ [])
    (hcell : ∀ row ∈ table, ∀ cell ∈ row, commaChar ∉ cell ∧ newlineChar ∉ cell) :
    read_csv (to_csv table) = table := by
  rw [read_csv, to_csv]
  rw [splitSep_joinSep newlineChar (table.map (joinSep commaChar))
    (by simpa using hne) ?hnl]
  case hnl =>
    intro j hj
    obtain ⟨row, hrowm, rfl⟩ := List.mem_map.mp hj
    intro hnl
    rcases mem_joinSep commaChar row newlineChar hnl with h1 | ⟨cell, hcm, hcc⟩
    · exact absurd h1 (by decide)
    · exact (hcell row hrowm cell hcm).2 hcc
  rw [List.map_map]
  have heach : ∀ row ∈ table, (splitSep commaChar ∘ joinSep commaChar) row = row := by
    intro row hr
    exact splitSep_joinSep commaChar row (hrow row hr)
      (fun cell hc => (hcell row hr cell hc).1)
  rw [List.map_congr_left heach]
  simp

theorem parseEnvRecord_renderEnvRecord (render : ℚ → List Char)
    (pnum : List Char → Option ℚ) (r : EnvRecord)
    (h1 : pnum (render r.temperature) = some r.temperature)
    (h2 : pnum (render r.humidity) = some r.humidity)
    (h3 : pnum (render r.ph) = some r.ph)
    (h4 : pnum (render r.ec) = some r.ec) :
    parseEnvRecord pnum (renderEnvRecord render r) = some r := by
  obtain ⟨⟨t, a, b, c, d⟩, s⟩ := r
  dsimp only at h1 h2 h3 h4
  simp only [renderEnvRecord, parseEnvRecord]
  rw [h1, h2, h3, h4]

/-- C9: writing the concatenation of all per-school environment records out as
CSV (header plus one line per record) and re-parsing that CSV yields the same
row count and the same per-row field values as the in-memory concatenation,
whenever the numeric codec is faithful on the values present and no rendered
cell contains a separator character. -/
theorem env_csv_roundtrip (render : ℚ → List Char) (pnum : List Char → Option ℚ)
    (env : List (String × List EnvRecord))
    (hnum : ∀ r ∈ combined_env env,
      pnum (render r.temperature) = some r.temperature ∧
      pnum (render r.humidity) = some r.humidity ∧
      pnum (render r.ph) = some r.ph ∧
      pnum (render r.ec) = some r.ec)
    (hsep : ∀ r ∈ combined_env env, ∀ cell ∈ renderEnvRecord render r,
      commaChar ∉ cell ∧ newlineChar ∉ cell) :
    env_read_csv pnum (env_to_csv render (combined_env env)) =
      (combined_env env).map some
    ∧ (env_read_csv pnum (env_to_csv render (combined_env env))).length =
        (combined_env env).length := by
  have hmain : read_csv (env_to_csv render (combined_env env)) =
      envHeader :: (combined_env env).map (renderEnvRecord render) := by
    apply read_csv_to_csv
    · simp
    · intro row hr
      rcases List.mem_cons.mp hr with rfl | hr2
      · simp [envHeader]
      · obtain ⟨r, hrm, rfl⟩ := List.mem_map.mp hr2
        simp [renderEnvRecord]
    · intro row hr cell hc
      rcases List.mem_cons.mp hr with rfl | hr2
      · have hh : ∀ x ∈ envHeader, commaChar ∉ x ∧ newlineChar ∉ x := by decide
        exact hh cell hc
      · obtain ⟨r, hrm, rfl⟩ := List.mem_map.mp hr2
        exact hsep r hrm cell hc
  have heq : env_read_csv pnum (env_to_csv render (combined_env env)) =
      (combined_env env).map some := by
    rw [env_read_csv, hmain, List.drop_one, List.tail_cons, List.map_map]
    apply List.map_congr_left
    intro r hr
    obtain ⟨e1, e2, e3, e4⟩ := hnum r hr
    exact parseEnvRecord_renderEnvRecord render pnum r e1 e2 e3 e4
  exact ⟨heq, by rw [heq, List.length_map]⟩

/-- Witness for C9 with an explicit one-record table and a concrete codec. -/
theorem env_csv_roundtrip_witness :
    env_read_csv pnumW (env_to_csv renderW (combined_env envDictW)) =
      (combined_env envDictW).map some :=
  (env_csv_roundtrip renderW pnumW envDictW (by decide) (by decide)).1

end PolarPlant
